import Mathlib

/-!
Verification of the readability parser (`parser-parse.go`).

The development shallowly embeds the `Parse` / `ParseDocument` entry points
and their helpers (`getDate`, `getParsedDate`) together with the data model
they operate on.  Go strings are byte sequences that may contain bytes that
are not part of any valid UTF-8 encoding; we model a Go string as a list of
decoded runes interleaved with such stray invalid bytes, which is exactly the
granularity at which `strings.ToValidUTF8`, `strings.TrimSpace` and
`strings.Fields` act.  The HTML document tree (package `golang.org/x/net/html`
and the `go-shiori/dom` helpers) is modelled as a rose tree of element and
text nodes.  The parts of the repository that are called from
`ParseDocument` but live in other files (`grabArticle`, `prepDocument`,
`getArticleMetadata`, ...) are modelled from the specification as opaque
pipeline stages supplied through an `Engine` record, so theorems quantify
over every behaviour those stages may have.
-/

namespace Readability

/-- One unit of a Go string: either a decoded Unicode code point or a stray
byte that is not part of any valid UTF-8 encoding. -/
inductive GoChar where
  | valid (c : Nat)
  | invalid (b : Nat)
deriving DecidableEq, Repr

/-- A Go string: a sequence of decoded runes and stray invalid bytes. -/
abbrev GoStr := List GoChar

/-- Embed a Lean string literal (always valid UTF-8) as a Go string. -/
def gs (s : String) : GoStr :=
  s.data.map (fun c => GoChar.valid c.toNat)

/-- Go's `unicode.IsSpace`: the White_Space code points. -/
def goIsSpace (c : Nat) : Bool :=
  ([9, 10, 11, 12, 13, 32, 133, 160, 5760,
    8192, 8193, 8194, 8195, 8196, 8197, 8198, 8199, 8200, 8201, 8202,
    8232, 8233, 8239, 8287, 12288] : List Nat).contains c

/-- Whitespace test on a Go string unit: an invalid byte is never space. -/
def isSpaceChar : GoChar → Bool
  | GoChar.valid c => goIsSpace c
  | GoChar.invalid _ => false

/-- `strings.TrimSpace`: drop whitespace from both ends. -/
def trimSpace (s : GoStr) : GoStr :=
  (((s.dropWhile isSpaceChar).reverse.dropWhile isSpaceChar)).reverse

/-- Accumulator version of `strings.Fields`: split into maximal runs of
non-whitespace units. -/
def fieldsAux : GoStr → GoStr → List GoStr
  | [], acc => if acc = [] then [] else [acc.reverse]
  | c :: rest, acc =>
      if isSpaceChar c then
        if acc = [] then fieldsAux rest [] else acc.reverse :: fieldsAux rest []
      else
        fieldsAux rest (c :: acc)

/-- `strings.Fields`: the whitespace-separated words of a string. -/
def fields (s : GoStr) : List GoStr := fieldsAux s []

/-- `strings.Join(ws, " ")`: interleave the words with single spaces. -/
def joinWithSpace : List GoStr → GoStr
  | [] => []
  | [w] => w
  | w :: ws => w ++ GoChar.valid 32 :: joinWithSpace ws

/-- Worker for `strings.ToValidUTF8`: the boolean records whether the
previous unit was an invalid byte, so that each maximal run of invalid
bytes is replaced by a single copy of the replacement string. -/
def toValidAux : GoStr → GoStr → Bool → GoStr
  | [], _, _ => []
  | GoChar.valid c :: rest, repl, _ => GoChar.valid c :: toValidAux rest repl false
  | GoChar.invalid _ :: rest, repl, prevInvalid =>
      (if prevInvalid then [] else repl) ++ toValidAux rest repl true

/-- `strings.ToValidUTF8(s, repl)`: copy `s`, replacing each maximal run of
invalid bytes by `repl`. -/
def toValidUTF8 (s repl : GoStr) : GoStr := toValidAux s repl false

/-- A Go string free of invalid byte sequences. -/
def noInvalid (s : GoStr) : Bool :=
  s.all (fun u => match u with | GoChar.valid _ => true | GoChar.invalid _ => false)

/-- Modelled from the spec: `charCount` (not under `src/`) counts the
characters of the final text content; on our string model every unit counts
as one character, as with `utf8.RuneCountInString`. -/
def charCount (s : GoStr) : Nat := s.length

/-- An HTML document tree node (`html.Node`): an element with a tag name,
attributes and children, or a text node.  The document root returned by the
external parser is modelled as an element node; only its children matter to
the functions below, matching `go-shiori/dom`, whose traversals start at the
root's children. -/
inductive HtmlNode where
  | element (tag : String) (attrs : List (String × GoStr)) (children : List HtmlNode)
  | text (data : GoStr)
deriving Repr

mutual

/-- `dom.Clone(node, deep=true)`: a deep structural copy of the tree. -/
def domClone : HtmlNode → HtmlNode
  | HtmlNode.text s => HtmlNode.text s
  | HtmlNode.element t a cs => HtmlNode.element t a (domCloneList cs)

/-- Deep copy of a list of sibling nodes. -/
def domCloneList : List HtmlNode → List HtmlNode
  | [] => []
  | n :: ns => domClone n :: domCloneList ns

end

mutual

/-- `dom.TextContent`: concatenation of the data of all text nodes of the
subtree, in document order. -/
def textContent : HtmlNode → GoStr
  | HtmlNode.text s => s
  | HtmlNode.element _ _ cs => textContentList cs

/-- Text content of a list of sibling nodes. -/
def textContentList : List HtmlNode → GoStr
  | [] => []
  | n :: ns => textContent n ++ textContentList ns

end

mutual

/-- Collect the descendant-or-self elements matching a tag name, in document
order; the tag `"*"` matches every element. -/
def collectByTag (tag : String) : HtmlNode → List HtmlNode
  | HtmlNode.text _ => []
  | HtmlNode.element t a cs =>
      (if tag = "*" ∨ t = tag then [HtmlNode.element t a cs] else []) ++
        collectByTagList tag cs

/-- Collect matching elements from a list of sibling subtrees. -/
def collectByTagList (tag : String) : List HtmlNode → List HtmlNode
  | [] => []
  | n :: ns => collectByTag tag n ++ collectByTagList tag ns

end

/-- `dom.GetElementsByTagName(node, tag)`: all matching elements strictly
below `node` (the traversal starts at the node's children). -/
def getElementsByTagName (node : HtmlNode) (tag : String) : List HtmlNode :=
  match node with
  | HtmlNode.text _ => []
  | HtmlNode.element _ _ cs => collectByTagList tag cs

/-- Is a node an element node? -/
def isElement : HtmlNode → Bool
  | HtmlNode.element _ _ _ => true
  | HtmlNode.text _ => false

/-- `dom.FirstElementChild`: the first child that is an element node. -/
def firstElementChild : HtmlNode → Option HtmlNode
  | HtmlNode.text _ => none
  | HtmlNode.element _ _ cs => cs.find? isElement

/-- HTML escaping of one code point, as in `html.EscapeString`. -/
def escapeChar (c : Nat) : GoStr :=
  if c = 38 then gs "&amp;"
  else if c = 39 then gs "&#39;"
  else if c = 60 then gs "&lt;"
  else if c = 62 then gs "&gt;"
  else if c = 34 then gs "&#34;"
  else [GoChar.valid c]

/-- HTML escaping of a Go string; stray invalid bytes pass through. -/
def escapeGoStr (s : GoStr) : GoStr :=
  s.flatMap (fun u => match u with
    | GoChar.valid c => escapeChar c
    | GoChar.invalid b => [GoChar.invalid b])

/-- Serialize one attribute as ` key="value"`. -/
def renderAttr (kv : String × GoStr) : GoStr :=
  gs " " ++ gs kv.1 ++ gs "=" ++ gs "\"" ++ escapeGoStr kv.2 ++ gs "\""

mutual

/-- `html.Render` of one node: markup for the node and its subtree. -/
def renderNode : HtmlNode → GoStr
  | HtmlNode.text s => escapeGoStr s
  | HtmlNode.element t attrs cs =>
      gs "<" ++ gs t ++ (attrs.map renderAttr).flatten ++ gs ">" ++
        renderNodeList cs ++ gs "</" ++ gs t ++ gs ">"

/-- Serialization of a list of sibling subtrees. -/
def renderNodeList : List HtmlNode → GoStr
  | [] => []
  | n :: ns => renderNode n ++ renderNodeList ns

end

/-- `dom.InnerHTML`: concatenation of the serializations of the children. -/
def innerHTML : HtmlNode → GoStr
  | HtmlNode.text _ => []
  | HtmlNode.element _ _ cs => renderNodeList cs

/-- The metadata record (`map[string]string`): canonical field names mapped
to string values, modelled as an association list with Go map semantics
(a missing key reads as the empty string). -/
abbrev Metadata := List (String × GoStr)

/-- Go map read with the comma-ok idiom: `v, ok := m[k]`. -/
def mlookup : Metadata → String → Option GoStr
  | [], _ => none
  | (k, v) :: rest, key => if k = key then some v else mlookup rest key

/-- Go map read without the ok: a missing key yields the zero string. -/
def mget (m : Metadata) (key : String) : GoStr := (mlookup m key).getD []

/-- Go map write `m[k] = v`: replace the binding, or add it. -/
def mset : Metadata → String → GoStr → Metadata
  | [], key, v => [(key, v)]
  | (k, w) :: rest, key, v =>
      if k = key then (k, v) :: rest else (k, w) :: mset rest key v

/-- A timestamp (`time.Time`), abstracted to its instant. -/
abbrev Time := Int

/-- The behaviour of the external `time.Parse`: for a layout string and a
date string, either the timestamp that layout decodes from the string, or
`none` when the string does not match the layout. -/
abbrev TimeParse := String → GoStr → Option Time

/-- The three heuristic switches of the extractor. -/
structure flags where
  stripUnlikelys : Bool
  useWeightClasses : Bool
  cleanConditionally : Bool
deriving DecidableEq, Repr

/-- Modelled from the spec: `parseAttempt` (not under `src/`) records one
scoring-plus-sanitation pass — the flags snapshot, the selected container
and the extracted text length. -/
structure parseAttempt where
  flags : flags
  articleContent : Option HtmlNode
  textLength : Nat

/-- The parser receiver: configuration options and the per-call mutable
state that `ParseDocument` resets at its start. -/
structure Parser where
  MaxElemsToParse : Int
  DisableJSONLD : Bool
  doc : HtmlNode
  articleTitle : GoStr
  articleByline : GoStr
  articleDir : GoStr
  articleSiteName : GoStr
  documentURI : Option GoStr
  attempts : List parseAttempt
  flags : flags

/-- Modelled from the spec: the pipeline stages called by `ParseDocument`
that live outside `src/` — the preprocessor (`unwrapNoscriptImages`,
`removeScripts`, `prepDocument`), the metadata extractor (`getJSONLD`,
`getArticleMetadata`), the scoring/retry engine (`grabArticle`, which may
update the parser state and yields the selected container or `nil`) and the
sanitizer fix-ups (`postProcessContent`).  Theorems quantify over every
behaviour of these stages. -/
structure Engine where
  unwrapNoscriptImages : HtmlNode → HtmlNode
  getJSONLD : HtmlNode → Metadata
  removeScripts : HtmlNode → HtmlNode
  prepDocument : HtmlNode → HtmlNode
  getArticleMetadata : HtmlNode → Metadata → Metadata
  grabArticle : Parser → Parser × Option HtmlNode
  postProcessContent : Parser → HtmlNode → HtmlNode

/-- The extracted article record. -/
structure Article where
  Title : GoStr
  Byline : GoStr
  Node : Option HtmlNode
  Content : GoStr
  TextContent : GoStr
  Length : Nat
  Excerpt : GoStr
  SiteName : GoStr
  Image : GoStr
  Favicon : GoStr
  PublishedTime : Option Time
  ModifiedTime : Option Time

/-- The zero value `Article{}`: every field empty or nil. -/
def emptyArticle : Article :=
  { Title := [], Byline := [], Node := none, Content := [], TextContent := [],
    Length := 0, Excerpt := [], SiteName := [], Image := [], Favicon := [],
    PublishedTime := none, ModifiedTime := none }

/-- The errors `Parse`/`ParseDocument` can return: a wrapped upstream parse
failure, or the document-too-large guard. -/
inductive ParseError where
  | inputParseFailed (msg : String)
  | documentTooLarge (numTags : Nat)
deriving DecidableEq, Repr

/-- The ordered list of date layouts tried by `getParsedDate`; the named Go
constants are inlined (RFC822, RFC822Z, RFC3339, UnixDate, RubyDate, RFC850,
RFC1123Z, RFC1123, ANSIC head the list). -/
def dateFormats : List String :=
  [ "02 Jan 06 15:04 MST",
    "02 Jan 06 15:04 -0700",
    "2006-01-02T15:04:05Z07:00",
    "Mon Jan _2 15:04:05 MST 2006",
    "Mon Jan 02 15:04:05 -0700 2006",
    "Monday, 02-Jan-06 15:04:05 MST",
    "Mon, 02 Jan 2006 15:04:05 -0700",
    "Mon, 02 Jan 2006 15:04:05 MST",
    "Mon Jan _2 15:04:05 2006",
    "Mon, January 2 2006 15:04:05 -0700",
    "Mon, January 02, 2006, 15:04:05 MST",
    "Mon, January 02, 2006 15:04:05 MST",
    "Mon, Jan 2, 2006 15:04 MST",
    "Mon, Jan 2 2006 15:04 MST",
    "Mon, Jan 2, 2006 15:04:05 MST",
    "Mon, Jan 2 2006 15:04:05 -700",
    "Mon, Jan 2 2006 15:04:05 -0700",
    "Mon Jan 2 15:04 2006",
    "Mon Jan 2 15:04:05 2006 MST",
    "Mon Jan 02, 2006 3:04 pm",
    "Mon, Jan 02,2006 15:04:05 MST",
    "Mon Jan 02 2006 15:04:05 -0700",
    "Monday, January 2, 2006 15:04:05 MST",
    "Monday, January 2, 2006 03:04 PM",
    "Monday, January 2, 2006",
    "Monday, January 02, 2006",
    "Monday, 2 January 2006 15:04:05 MST",
    "Monday, 2 January 2006 15:04:05 -0700",
    "Monday, 2 Jan 2006 15:04:05 MST",
    "Monday, 2 Jan 2006 15:04:05 -0700",
    "Monday, 02 January 2006 15:04:05 MST",
    "Monday, 02 January 2006 15:04:05 -0700",
    "Monday, 02 January 2006 15:04:05",
    "Mon, 2 January 2006 15:04 MST",
    "Mon, 2 January 2006, 15:04 -0700",
    "Mon, 2 January 2006, 15:04:05 MST",
    "Mon, 2 January 2006 15:04:05 MST",
    "Mon, 2 January 2006 15:04:05 -0700",
    "Mon, 2 January 2006",
    "Mon, 2 Jan 2006 3:04:05 PM -0700",
    "Mon, 2 Jan 2006 15:4:5 MST",
    "Mon, 2 Jan 2006 15:4:5 -0700 GMT",
    "Mon, 2, Jan 2006 15:4",
    "Mon, 2 Jan 2006 15:04 MST",
    "Mon, 2 Jan 2006, 15:04 -0700",
    "Mon, 2 Jan 2006 15:04 -0700",
    "Mon, 2 Jan 2006 15:04:05 UT",
    "Mon, 2 Jan 2006 15:04:05MST",
    "Mon, 2 Jan 2006 15:04:05 MST",
    "Mon 2 Jan 2006 15:04:05 MST",
    "mon,2 Jan 2006 15:04:05 MST",
    "Mon, 2 Jan 2006 15:04:05 -0700 MST",
    "Mon, 2 Jan 2006 15:04:05-0700",
    "Mon, 2 Jan 2006 15:04:05 -0700",
    "Mon, 2 Jan 2006 15:04:05",
    "Mon, 2 Jan 2006 15:04",
    "Mon,2 Jan 2006",
    "Mon, 2 Jan 2006",
    "Mon, 2 Jan 15:04:05 MST",
    "Mon, 2 Jan 06 15:04:05 MST",
    "Mon, 2 Jan 06 15:04:05 -0700",
    "Mon, 2006-01-02 15:04",
    "Mon,02 January 2006 14:04:05 MST",
    "Mon, 02 January 2006",
    "Mon, 02 Jan 2006 3:04:05 PM MST",
    "Mon, 02 Jan 2006 15 -0700",
    "Mon,02 Jan 2006 15:04 MST",
    "Mon, 02 Jan 2006 15:04 MST",
    "Mon, 02 Jan 2006 15:04 -0700",
    "Mon, 02 Jan 2006 15:04:05 Z",
    "Mon, 02 Jan 2006 15:04:05 UT",
    "Mon, 02 Jan 2006 15:04:05 MST-07:00",
    "Mon, 02 Jan 2006 15:04:05 MST -0700",
    "Mon, 02 Jan 2006, 15:04:05 MST",
    "Mon, 02 Jan 2006 15:04:05MST",
    "Mon, 02 Jan 2006 15:04:05 MST",
    "Mon , 02 Jan 2006 15:04:05 MST",
    "Mon, 02 Jan 2006 15:04:05 GMT-0700",
    "Mon,02 Jan 2006 15:04:05 -0700",
    "Mon, 02 Jan 2006 15:04:05 -0700",
    "Mon, 02 Jan 2006 15:04:05 -07:00",
    "Mon, 02 Jan 2006 15:04:05 --0700",
    "Mon 02 Jan 2006 15:04:05 -0700",
    "Mon, 02 Jan 2006 15:04:05 -07",
    "Mon, 02 Jan 2006 15:04:05 00",
    "Mon, 02 Jan 2006 15:04:05",
    "Mon, 02 Jan 2006",
    "Mon, 02 Jan 06 15:04:05 MST",
    "January 2, 2006 3:04 PM",
    "January 2, 2006, 3:04 p.m.",
    "January 2, 2006 15:04:05 MST",
    "January 2, 2006 15:04:05",
    "January 2, 2006 03:04 PM",
    "January 2, 2006",
    "January 02, 2006 15:04:05 MST",
    "January 02, 2006 15:04",
    "January 02, 2006 03:04 PM",
    "January 02, 2006",
    "Jan 2, 2006 3:04:05 PM MST",
    "Jan 2, 2006 3:04:05 PM",
    "Jan 2, 2006 15:04:05 MST",
    "Jan 2, 2006",
    "Jan 02 2006 03:04:05PM",
    "Jan 02, 2006",
    "6/1/2 15:04",
    "6-1-2 15:04",
    "2 January 2006 15:04:05 MST",
    "2 January 2006 15:04:05 -0700",
    "2 January 2006",
    "2 Jan 2006 15:04:05 Z",
    "2 Jan 2006 15:04:05 MST",
    "2 Jan 2006 15:04:05 -0700",
    "2 Jan 2006",
    "2.1.2006 15:04:05",
    "2/1/2006",
    "2-1-2006",
    "2006 January 02",
    "2006-1-2T15:04:05Z",
    "2006-1-2 15:04:05",
    "2006-1-2",
    "2006-1-02T15:04:05Z",
    "2006-01-02T15:04Z",
    "2006-01-02T15:04-07:00",
    "2006-01-02T15:04:05Z",
    "2006-01-02T15:04:05-07:00:00",
    "2006-01-02T15:04:05:-0700",
    "2006-01-02T15:04:05-0700",
    "2006-01-02T15:04:05-07:00",
    "2006-01-02T15:04:05 -0700",
    "2006-01-02T15:04:05:00",
    "2006-01-02T15:04:05",
    "2006-01-02 at 15:04:05",
    "2006-01-02 15:04:05Z",
    "2006-01-02 15:04:05 MST",
    "2006-01-02 15:04:05-0700",
    "2006-01-02 15:04:05-07:00",
    "2006-01-02 15:04:05 -0700",
    "2006-01-02 15:04",
    "2006-01-02 00:00:00.0 15:04:05.0 -0700",
    "2006/01/02",
    "2006-01-02",
    "15:04 02.01.2006 -0700",
    "1/2/2006 3:04:05 PM MST",
    "1/2/2006 3:04:05 PM",
    "1/2/2006 15:04:05 MST",
    "1/2/2006",
    "06/1/2 15:04",
    "06-1-2 15:04",
    "02 Monday, Jan 2006 15:04",
    "02 Jan 2006 15:04 MST",
    "02 Jan 2006 15:04:05 UT",
    "02 Jan 2006 15:04:05 MST",
    "02 Jan 2006 15:04:05 -0700",
    "02 Jan 2006 15:04:05",
    "02 Jan 2006",
    "02/01/2006 15:04 MST",
    "02-01-2006 15:04:05 MST",
    "02.01.2006 15:04:05",
    "02/01/2006 15:04:05",
    "02.01.2006 15:04",
    "02/01/2006 - 15:04",
    "02.01.2006 -0700",
    "02/01/2006",
    "02-01-2006",
    "01/02/2006 3:04 PM",
    "01/02/2006 15:04:05 MST",
    "01/02/2006 - 15:04",
    "01/02/2006",
    "01-02-2006" ]

/-- The loop body of `getParsedDate`: try each layout in order, returning
the timestamp decoded by the first layout that matches. -/
def tryFormats (tp : TimeParse) (dateStr : GoStr) : List String → Option Time
  | [] => none
  | fmt :: rest =>
      match tp fmt dateStr with
      | some parsedDate => some parsedDate
      | none => tryFormats tp dateStr rest

/-- `getParsedDate`: match the date string against the ordered layout list;
an unmatched string yields no timestamp (the failure branch only logs). -/
def getParsedDate (tp : TimeParse) (dateStr : GoStr) : Option Time :=
  tryFormats tp dateStr dateFormats

/-- `getDate`: read a metadata field and parse it when present and
non-empty. -/
def getDate (tp : TimeParse) (metadata : Metadata) (fieldName : String) :
    Option Time :=
  match mlookup metadata fieldName with
  | some dateStr => if 0 < dateStr.length then getParsedDate tp dateStr else none
  | none => none

/-- The result of one `ParseDocument` call in the state-passing embedding:
the article and error the Go function returns, together with the
caller-owned document tree as observable after the call (all in-place
mutation happens on the parser's private clone, never on this tree). -/
structure ParseResult where
  article : Article
  err : Option ParseError
  docAfter : HtmlNode

/-- Lines 28-41 of `ParseDocument`: store a deep clone of the caller's
document as the working tree and reset the per-call parser state. -/
def resetParser (ps : Parser) (doc : HtmlNode) (pageURL : Option GoStr) : Parser :=
  { ps with
    doc := domClone doc,
    articleTitle := [], articleByline := [], articleDir := [], articleSiteName := [],
    documentURI := pageURL,
    attempts := [],
    flags := { stripUnlikelys := true, useWeightClasses := true,
               cleanConditionally := true } }

/-- `len(dom.GetElementsByTagName(doc, "*"))`: the number of element nodes
strictly below the root. -/
def numTagsOf (doc : HtmlNode) : Nat := (getElementsByTagName doc "*").length

/-- Line 52 of `ParseDocument`: the working tree after `unwrapNoscriptImages`. -/
def docAfterUnwrap (E : Engine) (ps : Parser) : HtmlNode :=
  E.unwrapNoscriptImages ps.doc

/-- Lines 55-58 of `ParseDocument`: JSON-LD metadata, read before scripts are
removed and only when not disabled; the error is discarded. -/
def jsonLdOf (E : Engine) (ps : Parser) : Metadata :=
  if ps.DisableJSONLD then [] else E.getJSONLD (docAfterUnwrap E ps)

/-- Lines 61-64 of `ParseDocument`: the working tree after `removeScripts`
and `prepDocument`. -/
def docPrepared (E : Engine) (ps : Parser) : HtmlNode :=
  E.prepDocument (E.removeScripts (docAfterUnwrap E ps))

/-- Line 67 of `ParseDocument`: the merged metadata record. -/
def pipelineMetadata (E : Engine) (ps : Parser) : Metadata :=
  E.getArticleMetadata (docPrepared E ps) (jsonLdOf E ps)

/-- The parser state at line 73, just before `grabArticle` runs: the working
tree has been preprocessed and `articleTitle` holds the metadata title. -/
def grabState (E : Engine) (ps : Parser) : Parser :=
  { ps with doc := docPrepared E ps,
            articleTitle := mget (pipelineMetadata E ps) "title" }

/-- Line 73 of `ParseDocument`: run `grabArticle`, which may update the
parser state and yields the selected container or `nil`. -/
def grabOut (E : Engine) (ps : Parser) : Parser × Option HtmlNode :=
  E.grabArticle (grabState E ps)

/-- Lines 95-98 of `ParseDocument`: the byline from metadata, falling back
to the byline found while grabbing. -/
def finalBylineStr (psg : Parser) (metadata : Metadata) : GoStr :=
  let b := mget metadata "byline"
  if b = [] then psg.articleByline else b

/-- Lines 108-111 of `ParseDocument`: `pageURL.String()` when a locator was
given, the zero string otherwise. -/
def urlString : Option GoStr → GoStr
  | some u => u
  | none => []

/-- Lines 100-133 of `ParseDocument`: assemble the article record from the
post-grab parser state, the metadata record and the extracted content. -/
def buildArticle (tp : TimeParse) (psg : Parser) (metadata : Metadata)
    (readableNode : Option HtmlNode) (finalHTMLContent finalTextContent : GoStr)
    (pageURL : Option GoStr) (doc : HtmlNode) : ParseResult :=
  let excerpt := trimSpace (mget metadata "excerpt")
  let excerpt := joinWithSpace (fields excerpt)
  let replacementTitle := urlString pageURL
  let validTitle := toValidUTF8 psg.articleTitle replacementTitle
  let validByline := toValidUTF8 (finalBylineStr psg metadata) []
  let validExcerpt := toValidUTF8 excerpt []
  let datePublished := getDate tp metadata "datePublished"
  let dateModified := getDate tp metadata "dataModified"
  { article :=
      { Title := validTitle, Byline := validByline, Node := readableNode,
        Content := finalHTMLContent, TextContent := finalTextContent,
        Length := charCount finalTextContent, Excerpt := validExcerpt,
        SiteName := mget metadata "siteName", Image := mget metadata "image",
        Favicon := mget metadata "favicon",
        PublishedTime := datePublished, ModifiedTime := dateModified },
    err := none,
    docAfter := doc }

/-- Lines 79-87 of `ParseDocument`: when no metadata source supplied an
excerpt, fall back to the trimmed text of the first paragraph inside the
selected container. -/
def excerptUpdated (metadata : Metadata) (ac : HtmlNode) : Metadata :=
  if mget metadata "excerpt" = [] then
    match getElementsByTagName ac "p" with
    | [] => metadata
    | p0 :: _ => mset metadata "excerpt" (trimSpace (textContent p0))
  else metadata

/-- Lines 71-133 of `ParseDocument`: the content branch.  When a container
was grabbed it is post-processed, the excerpt falls back to the first
paragraph's trimmed text, and the serialized / plain content is taken from
it; otherwise content stays empty and only metadata flows into the article. -/
def finishParse (E : Engine) (tp : TimeParse) (psg : Parser) (metadata : Metadata)
    (articleContent : Option HtmlNode) (pageURL : Option GoStr) (doc : HtmlNode) :
    ParseResult :=
  match articleContent with
  | none => buildArticle tp psg metadata none [] [] pageURL doc
  | some ac0 =>
      let ac := E.postProcessContent psg ac0
      buildArticle tp psg (excerptUpdated metadata ac) (firstElementChild ac)
        (innerHTML ac) (trimSpace (textContent ac)) pageURL doc

/-- `ParseDocument`: reset state onto a private clone, enforce the element
budget, run the preprocessing / metadata / grab pipeline and assemble the
article.  The Go source nests the size check (`MaxElemsToParse > 0` outside,
`numTags > MaxElemsToParse` inside); the conjunction below is the same
guard. -/
def ParseDocument (E : Engine) (tp : TimeParse) (ps : Parser) (doc : HtmlNode)
    (pageURL : Option GoStr) : ParseResult :=
  if 0 < ps.MaxElemsToParse ∧
      ps.MaxElemsToParse < (numTagsOf (resetParser ps doc pageURL).doc : Int) then
    { article := emptyArticle,
      err := some (ParseError.documentTooLarge
        (numTagsOf (resetParser ps doc pageURL).doc)),
      docAfter := doc }
  else
    finishParse E tp (grabOut E (resetParser ps doc pageURL)).1
      (pipelineMetadata E (resetParser ps doc pageURL))
      (grabOut E (resetParser ps doc pageURL)).2 pageURL doc

/-- The behaviour of the external `dom.Parse`: construct a document tree
from the raw input stream, or fail. -/
abbrev DomParse := List Nat → Except String HtmlNode

/-- `Parse`: run the external tree construction and then `ParseDocument`;
an upstream failure is wrapped and returned with the zero article. -/
def Parse (E : Engine) (tp : TimeParse) (dp : DomParse) (ps : Parser)
    (input : List Nat) (pageURL : Option GoStr) : Article × Option ParseError :=
  match dp input with
  | Except.error msg => (emptyArticle, some (ParseError.inputParseFailed msg))
  | Except.ok doc =>
      let r := ParseDocument E tp ps doc pageURL
      (r.article, r.err)

mutual

/-- Cloning is a faithful deep copy: the clone is structurally identical to
the original tree. -/
theorem domClone_eq : ∀ n : HtmlNode, domClone n = n
  | HtmlNode.text _ => rfl
  | HtmlNode.element t a cs => by rw [domClone, domCloneList_eq cs]

/-- Cloning a list of siblings is a faithful deep copy. -/
theorem domCloneList_eq : ∀ ns : List HtmlNode, domCloneList ns = ns
  | [] => rfl
  | n :: ns => by rw [domCloneList, domClone_eq n, domCloneList_eq ns]

end

/-- `trimSpace` written with Mathlib's right-trim. -/
theorem trimSpace_eq_rdrop (s : GoStr) :
    trimSpace s = List.rdropWhile isSpaceChar (s.dropWhile isSpaceChar) := rfl

/-- The left part of an empty concatenation is empty. -/
theorem listAppendNilLeft {α : Type} {l r : List α} (h : l ++ r = []) : l = [] :=
  (List.append_eq_nil.mp h).1

/-- Trimming is idempotent. -/
theorem trimSpace_idem (s : GoStr) : trimSpace (trimSpace s) = trimSpace s := by
  have hdrop : List.dropWhile isSpaceChar (trimSpace s) = trimSpace s := by
    rw [trimSpace_eq_rdrop]
    rcases hy : List.rdropWhile isSpaceChar (s.dropWhile isSpaceChar) with _ | ⟨a, t⟩
    · rfl
    · obtain ⟨r, hr⟩ := List.rdropWhile_prefix isSpaceChar (s.dropWhile isSpaceChar)
      rw [hy] at hr
      have hne : s.dropWhile isSpaceChar ≠ [] := by
        intro h0; rw [h0] at hr; exact List.cons_ne_nil _ _ hr
      have hhead := List.head_dropWhile_not isSpaceChar s hne
      have hsome : (s.dropWhile isSpaceChar).head? = some a := by
        rw [← hr]; rfl
      rw [List.head?_eq_head hne] at hsome
      have ha : (s.dropWhile isSpaceChar).head hne = a := Option.some.inj hsome
      rw [ha] at hhead
      rw [List.dropWhile_cons, if_neg (by simpa using hhead)]
  calc trimSpace (trimSpace s)
      = List.rdropWhile isSpaceChar (List.dropWhile isSpaceChar (trimSpace s)) :=
        trimSpace_eq_rdrop _
    _ = List.rdropWhile isSpaceChar (trimSpace s) := by rw [hdrop]
    _ = trimSpace s := by
        rw [trimSpace_eq_rdrop, List.rdropWhile_idempotent]

/-- Escaping one code point never yields an empty string. -/
theorem escapeChar_length_pos (c : Nat) : 0 < (escapeChar c).length := by
  unfold escapeChar
  split
  · decide
  split
  · decide
  split
  · decide
  split
  · decide
  split
  · decide
  · simp

/-- Escaped text is empty only when the text is empty. -/
theorem escapeGoStr_eq_nil {s : GoStr} (h : escapeGoStr s = []) : s = [] := by
  cases s with
  | nil => rfl
  | cons u rest =>
    exfalso
    rw [escapeGoStr, List.flatMap_cons] at h
    have h1 := listAppendNilLeft h
    cases u with
    | valid c =>
      have hp := escapeChar_length_pos c
      have h2 : escapeChar c = [] := h1
      rw [h2] at hp
      exact Nat.lt_irrefl 0 hp
    | invalid b =>
      have h2 : ([GoChar.invalid b] : GoStr) = [] := h1
      exact List.cons_ne_nil _ _ h2

/-- A node whose serialization is empty holds no text. -/
theorem renderNode_nil_text : ∀ n : HtmlNode, renderNode n = [] → textContent n = []
  | HtmlNode.text s, h => by
      rw [textContent]
      exact escapeGoStr_eq_nil (by rw [renderNode] at h; exact h)
  | HtmlNode.element t a cs, h => by
      exfalso
      rw [renderNode] at h
      have h1 := listAppendNilLeft (listAppendNilLeft (listAppendNilLeft
        (listAppendNilLeft (listAppendNilLeft (listAppendNilLeft
          (listAppendNilLeft h))))))
      have : gs "<" ≠ [] := by decide
      exact this h1

/-- A sibling list whose serialization is empty holds no text. -/
theorem renderNodeList_nil_text :
    ∀ ns : List HtmlNode, renderNodeList ns = [] → textContentList ns = []
  | [], _ => rfl
  | n :: ns, h => by
      rw [renderNodeList] at h
      obtain ⟨h1, h2⟩ := List.append_eq_nil.mp h
      rw [textContentList, renderNode_nil_text n h1, renderNodeList_nil_text ns h2]
      rfl

/-- For an element node, empty inner markup forces empty text content. -/
theorem innerHTML_nil_textContent {n : HtmlNode} (he : isElement n = true)
    (h : innerHTML n = []) : textContent n = [] := by
  cases n with
  | text s => exact absurd he (by rw [isElement]; simp)
  | element t a cs =>
      rw [innerHTML] at h
      rw [textContent]
      exact renderNodeList_nil_text cs h

/-- Repair keeps a string free of invalid sequences when the replacement is. -/
theorem toValidAux_noInvalid {repl : GoStr} (hr : noInvalid repl = true) :
    ∀ (s : GoStr) (b : Bool), noInvalid (toValidAux s repl b) = true
  | [], _ => rfl
  | GoChar.valid c :: rest, b => by
      rw [toValidAux]
      simpa [noInvalid] using toValidAux_noInvalid hr rest false
  | GoChar.invalid x :: rest, b => by
      rw [toValidAux]
      have h1 : noInvalid (toValidAux rest repl true) = true :=
        toValidAux_noInvalid hr rest true
      rcases b with _ | _
      · simp only [Bool.false_eq_true, if_false, noInvalid, List.all_append,
          Bool.and_eq_true]
        exact And.intro hr h1
      · simpa [noInvalid] using h1

/-- Repair is the identity on strings with no invalid sequences. -/
theorem toValidAux_of_noInvalid :
    ∀ (s : GoStr), noInvalid s = true → ∀ (repl : GoStr) (b : Bool),
      toValidAux s repl b = s
  | [], _, _, _ => rfl
  | GoChar.valid c :: rest, h, repl, b => by
      rw [toValidAux]
      have hrest : noInvalid rest = true := by
        simpa [noInvalid] using h
      rw [toValidAux_of_noInvalid rest hrest repl false]
  | GoChar.invalid x :: rest, h, repl, b => by
      exfalso
      simp [noInvalid] at h

/-- A string that is a single invalid run is replaced by the replacement. -/
theorem toValidUTF8_invalid_run (b : Nat) (repl : GoStr) :
    toValidUTF8 [GoChar.invalid b] repl = repl := by
  rw [toValidUTF8, toValidAux]
  simp [toValidAux]

/-- Repaired output with an empty replacement has no invalid sequences. -/
theorem toValidUTF8_noInvalid {repl : GoStr} (hr : noInvalid repl = true)
    (s : GoStr) : noInvalid (toValidUTF8 s repl) = true :=
  toValidAux_noInvalid hr s false

/-- Repair is the identity on valid strings. -/
theorem toValidUTF8_of_noInvalid {s : GoStr} (h : noInvalid s = true)
    (repl : GoStr) : toValidUTF8 s repl = s :=
  toValidAux_of_noInvalid s h repl false

/-- Looking up the key just written yields the written value. -/
theorem mlookup_mset_self : ∀ (m : Metadata) (k : String) (v : GoStr),
    mlookup (mset m k v) k = some v
  | [], k, v => by simp [mset, mlookup]
  | (k', w) :: rest, k, v => by
      by_cases h : k' = k
      · simp [mset, mlookup, h]
      · simp only [mset, if_neg h, mlookup]
        exact mlookup_mset_self rest k v

/-- Reading the key just written yields the written value. -/
theorem mget_mset_self (m : Metadata) (k : String) (v : GoStr) :
    mget (mset m k v) k = v := by
  rw [mget, mlookup_mset_self]
  rfl

/-- Writing one key leaves the others unchanged. -/
theorem mlookup_mset_ne : ∀ (m : Metadata) (k key : String) (v : GoStr),
    k ≠ key → mlookup (mset m k v) key = mlookup m key
  | [], k, key, v, h => by simp [mset, mlookup, h]
  | (k', w) :: rest, k, key, v, h => by
      by_cases hk : k' = k
      · subst hk
        simp [mset, mlookup, h]
      · by_cases hkey : k' = key
        · simp [mset, mlookup, hk, hkey, Ne.symm h]
        · simp only [mset, if_neg hk, mlookup, if_neg hkey]
          exact mlookup_mset_ne rest k key v h

/-- Reading another key after a write is unchanged. -/
theorem mget_mset_ne (m : Metadata) (k key : String) (v : GoStr) (h : k ≠ key) :
    mget (mset m k v) key = mget m key := by
  rw [mget, mlookup_mset_ne m k key v h, mget]

/-- The working tree stored at the start of a call is the clone of the
caller's document, hence structurally the same tree. -/
theorem resetParser_doc (ps : Parser) (doc : HtmlNode) (url : Option GoStr) :
    (resetParser ps doc url).doc = doc := domClone_eq doc

/-- The element count of the working clone equals that of the caller's tree. -/
theorem numTags_reset (ps : Parser) (doc : HtmlNode) (url : Option GoStr) :
    numTagsOf (resetParser ps doc url).doc = numTagsOf doc := by
  rw [resetParser_doc]

/-- The guard branch of `ParseDocument`. -/
theorem ParseDocument_large (E : Engine) (tp : TimeParse) (ps : Parser)
    (doc : HtmlNode) (url : Option GoStr) (h0 : 0 < ps.MaxElemsToParse)
    (h1 : ps.MaxElemsToParse < (numTagsOf doc : Int)) :
    ParseDocument E tp ps doc url =
      { article := emptyArticle,
        err := some (ParseError.documentTooLarge (numTagsOf doc)),
        docAfter := doc } := by
  simp only [ParseDocument, numTags_reset]
  rw [if_pos (And.intro h0 h1)]

/-- The content branch of `ParseDocument`. -/
theorem ParseDocument_small (E : Engine) (tp : TimeParse) (ps : Parser)
    (doc : HtmlNode) (url : Option GoStr)
    (h : ps.MaxElemsToParse ≤ 0 ∨ (numTagsOf doc : Int) ≤ ps.MaxElemsToParse) :
    ParseDocument E tp ps doc url =
      finishParse E tp (grabOut E (resetParser ps doc url)).1
        (pipelineMetadata E (resetParser ps doc url))
        (grabOut E (resetParser ps doc url)).2 url doc := by
  simp only [ParseDocument, numTags_reset]
  rw [if_neg]
  rcases h with h | h
  · exact fun hc => absurd hc.1 (not_lt.mpr h)
  · exact fun hc => absurd hc.2 (not_lt.mpr h)

/-- The content branch never reports an error. -/
theorem finishParse_err (E : Engine) (tp : TimeParse) (psg : Parser)
    (md : Metadata) (ac : Option HtmlNode) (url : Option GoStr) (doc : HtmlNode) :
    (finishParse E tp psg md ac url doc).err = none := by
  cases ac <;> rfl

/-- The content branch returns the caller's tree untouched. -/
theorem finishParse_docAfter (E : Engine) (tp : TimeParse) (psg : Parser)
    (md : Metadata) (ac : Option HtmlNode) (url : Option GoStr) (doc : HtmlNode) :
    (finishParse E tp psg md ac url doc).docAfter = doc := by
  cases ac <;> rfl

/-- C2: extraction operates only on a private clone of the input tree: in
the state-passing embedding the caller-owned tree threaded through the call
comes back structurally identical, and the working copy made at line 28 is a
faithful deep clone of it. -/
theorem parseDocument_never_mutates_caller (E : Engine) (tp : TimeParse)
    (ps : Parser) (doc : HtmlNode) (url : Option GoStr) :
    (ParseDocument E tp ps doc url).docAfter = doc ∧ domClone doc = doc := by
  constructor
  · rw [ParseDocument]
    split
    · rfl
    · exact finishParse_docAfter _ _ _ _ _ _ _
  · exact domClone_eq doc

/-- C9: the parser state handed to the extraction attempt machinery has all
three heuristic flags set to `true` and an empty attempt history, whatever
state the parser was left in; consequently the incoming flag and attempt
state of the receiver is irrelevant to the call's result. -/
theorem flags_and_attempts_reset (E : Engine) (tp : TimeParse) (ps : Parser)
    (doc : HtmlNode) (url : Option GoStr) :
    ((grabState E (resetParser ps doc url)).flags.stripUnlikelys = true ∧
     (grabState E (resetParser ps doc url)).flags.useWeightClasses = true ∧
     (grabState E (resetParser ps doc url)).flags.cleanConditionally = true ∧
     (grabState E (resetParser ps doc url)).attempts = []) ∧
    ∀ (f : flags) (a : List parseAttempt),
      ParseDocument E tp { ps with flags := f, attempts := a } doc url =
        ParseDocument E tp ps doc url :=
  ⟨⟨rfl, rfl, rfl, rfl⟩, fun _ _ => rfl⟩

/-- A pipeline whose stages do nothing and find no container, for concrete
instantiations. -/
def idEngine : Engine :=
  { unwrapNoscriptImages := fun d => d,
    getJSONLD := fun _ => [],
    removeScripts := fun d => d,
    prepDocument := fun d => d,
    getArticleMetadata := fun _ j => j,
    grabArticle := fun ps => (ps, none),
    postProcessContent := fun _ ac => ac }

/-- A `time.Parse` behaviour that matches no layout. -/
def tpNone : TimeParse := fun _ _ => none

/-- A parser receiver with default options, for concrete instantiations. -/
def psDefault : Parser :=
  { MaxElemsToParse := 0, DisableJSONLD := true,
    doc := HtmlNode.element "html" [] [],
    articleTitle := [], articleByline := [], articleDir := [], articleSiteName := [],
    documentURI := none, attempts := [],
    flags := { stripUnlikelys := true, useWeightClasses := true,
               cleanConditionally := true } }

/-- A concrete document holding two element nodes below the root. -/
def docTwo : HtmlNode :=
  HtmlNode.element "html" [] [HtmlNode.element "body" [] [HtmlNode.element "p" [] []]]

/-- A pipeline with a different preprocessor, to exhibit engine independence
of the size guard. -/
def engAlt : Engine :=
  { idEngine with prepDocument := fun _ => HtmlNode.element "div" [] [] }

/-- C3: when the element count is within a positive budget, or the budget is
zero or negative (unlimited), the call never returns the document-too-large
error; when the count exceeds a positive budget the call fails with exactly
that error, and the result does not depend on the extraction engine or the
date parser at all — the guard fires before any scoring work. -/
theorem maxElems_guard (E E' : Engine) (tp tp' : TimeParse) (ps : Parser)
    (doc : HtmlNode) (url : Option GoStr) :
    ((ps.MaxElemsToParse ≤ 0 ∨ (numTagsOf doc : Int) ≤ ps.MaxElemsToParse) →
       (ParseDocument E tp ps doc url).err = none) ∧
    (0 < ps.MaxElemsToParse → ps.MaxElemsToParse < (numTagsOf doc : Int) →
       (ParseDocument E tp ps doc url).err =
           some (ParseError.documentTooLarge (numTagsOf doc)) ∧
         ParseDocument E tp ps doc url = ParseDocument E' tp' ps doc url) := by
  constructor
  · intro h
    rw [ParseDocument_small E tp ps doc url h]
    exact finishParse_err _ _ _ _ _ _ _
  · intro h0 h1
    rw [ParseDocument_large E tp ps doc url h0 h1,
        ParseDocument_large E' tp' ps doc url h0 h1]
    exact ⟨rfl, rfl⟩

/-- Witness for the size guard: a two-element document under budget five
passes, and under budget one fails with the too-large error independently of
the engine. -/
theorem maxElems_guard_inst :
    (ParseDocument idEngine tpNone { psDefault with MaxElemsToParse := 5 }
        docTwo none).err = none ∧
    (ParseDocument idEngine tpNone { psDefault with MaxElemsToParse := 1 }
        docTwo none).err = some (ParseError.documentTooLarge 2) ∧
    ParseDocument idEngine tpNone { psDefault with MaxElemsToParse := 1 }
        docTwo none =
      ParseDocument engAlt tpNone { psDefault with MaxElemsToParse := 1 }
        docTwo none := by
  refine ⟨?_, ?_, ?_⟩
  · exact (maxElems_guard idEngine idEngine tpNone tpNone _ docTwo none).1
      (Or.inr (by decide))
  · have h := ((maxElems_guard idEngine engAlt tpNone tpNone
      { psDefault with MaxElemsToParse := 1 } docTwo none).2 (by decide) (by decide)).1
    rw [h]
    decide
  · exact ((maxElems_guard idEngine engAlt tpNone tpNone
      { psDefault with MaxElemsToParse := 1 } docTwo none).2 (by decide) (by decide)).2

/-- An errored call carries the zero-value article. -/
theorem ParseDocument_err_article (E : Engine) (tp : TimeParse) (ps : Parser)
    (doc : HtmlNode) (url : Option GoStr)
    (h : (ParseDocument E tp ps doc url).err.isSome = true) :
    (ParseDocument E tp ps doc url).article = emptyArticle := by
  by_cases hc : 0 < ps.MaxElemsToParse ∧ ps.MaxElemsToParse < (numTagsOf doc : Int)
  · rw [ParseDocument_large E tp ps doc url hc.1 hc.2]
  · have h' : ps.MaxElemsToParse ≤ 0 ∨ (numTagsOf doc : Int) ≤ ps.MaxElemsToParse := by
      rcases not_and_or.mp hc with h1 | h1
      · exact Or.inl (not_lt.mp h1)
      · exact Or.inr (not_lt.mp h1)
    rw [ParseDocument_small E tp ps doc url h'] at h
    rw [finishParse_err] at h
    exact absurd h (by simp)

/-- C10: on every error path — upstream parse failure or the size guard —
the zero-value article accompanies the error; no partially populated result
is ever returned alongside an error. -/
theorem errors_return_zero_article (E : Engine) (tp : TimeParse) (dp : DomParse)
    (ps : Parser) (input : List Nat) (url : Option GoStr) (doc : HtmlNode)
    (msg : String) :
    (dp input = Except.error msg →
       Parse E tp dp ps input url =
         (emptyArticle, some (ParseError.inputParseFailed msg))) ∧
    ((ParseDocument E tp ps doc url).err.isSome = true →
       (ParseDocument E tp ps doc url).article = emptyArticle) ∧
    ((Parse E tp dp ps input url).2.isSome = true →
       (Parse E tp dp ps input url).1 = emptyArticle) := by
  refine ⟨?_, ParseDocument_err_article E tp ps doc url, ?_⟩
  · intro h
    rw [Parse, h]
  · intro h
    rcases hdp : dp input with msg' | doc'
    · rw [Parse, hdp]
    · rw [Parse, hdp]
      rw [Parse, hdp] at h
      exact ParseDocument_err_article E tp ps doc' url h

/-- A tree construction that always fails, for concrete instantiation. -/
def dpFail : DomParse := fun _ => Except.error "bad input"

/-- Witness for the zero-article error paths: a failing upstream parse and an
over-budget document both yield the zero article. -/
theorem errors_return_zero_article_inst :
    Parse idEngine tpNone dpFail psDefault [] none =
      (emptyArticle, some (ParseError.inputParseFailed "bad input")) ∧
    (ParseDocument idEngine tpNone { psDefault with MaxElemsToParse := 1 }
        docTwo none).article = emptyArticle := by
  constructor
  · exact (errors_return_zero_article idEngine tpNone dpFail psDefault [] none
      docTwo "bad input").1 rfl
  · exact (errors_return_zero_article idEngine tpNone dpFail
      { psDefault with MaxElemsToParse := 1 } [] none docTwo "bad input").2.1
      (by decide)

/-- Conversion of the negated size guard to its two-sided form. -/
theorem guard_not_and {ps : Parser} {doc : HtmlNode}
    (hc : ¬(0 < ps.MaxElemsToParse ∧
      ps.MaxElemsToParse < (numTagsOf doc : Int))) :
    ps.MaxElemsToParse ≤ 0 ∨ (numTagsOf doc : Int) ≤ ps.MaxElemsToParse := by
  rcases not_and_or.mp hc with h | h
  · exact Or.inl (not_lt.mp h)
  · exact Or.inr (not_lt.mp h)

/-- The content branch with no container found. -/
theorem finishParse_none (E : Engine) (tp : TimeParse) (psg : Parser)
    (md : Metadata) (url : Option GoStr) (doc : HtmlNode) :
    finishParse E tp psg md none url doc =
      buildArticle tp psg md none [] [] url doc := rfl

/-- The content branch with a selected container. -/
theorem finishParse_some (E : Engine) (tp : TimeParse) (psg : Parser)
    (md : Metadata) (ac0 : HtmlNode) (url : Option GoStr) (doc : HtmlNode) :
    finishParse E tp psg md (some ac0) url doc =
      buildArticle tp psg (excerptUpdated md (E.postProcessContent psg ac0))
        (firstElementChild (E.postProcessContent psg ac0))
        (innerHTML (E.postProcessContent psg ac0))
        (trimSpace (textContent (E.postProcessContent psg ac0))) url doc := rfl

/-- A pipeline that selects a container holding a single image and no text. -/
def engC1 : Engine :=
  { idEngine with
    grabArticle := fun ps =>
      (ps, some (HtmlNode.element "div" [] [HtmlNode.element "img" [] []])) }

/-- C1 fails as stated: on a call whose selected container holds only an
image, the article has `Length = 0` while `Content` is the serialized image
markup, which is not the empty string. -/
theorem length_zero_content_nonempty_cex :
    ¬ ((ParseDocument engC1 tpNone psDefault docTwo none).article.Length = 0 ↔
       (ParseDocument engC1 tpNone psDefault docTwo none).article.Content = []) := by
  decide

/-- C1 (amended): `Length` is zero exactly when the trimmed plain text is
empty, and an empty `Content` still forces `Length = 0` (given that the
sanitizer returns element containers, as the real one does); the converse
direction of the original claim is dropped. -/
theorem length_zero_iff_text_empty (E : Engine) (tp : TimeParse) (ps : Parser)
    (doc : HtmlNode) (url : Option GoStr)
    (hel : ∀ (psg : Parser) (ac : HtmlNode),
      isElement (E.postProcessContent psg ac) = true) :
    ((ParseDocument E tp ps doc url).article.Length = 0 ↔
       (ParseDocument E tp ps doc url).article.TextContent = []) ∧
    ((ParseDocument E tp ps doc url).article.Content = [] →
       (ParseDocument E tp ps doc url).article.Length = 0) := by
  by_cases hc : 0 < ps.MaxElemsToParse ∧
      ps.MaxElemsToParse < (numTagsOf doc : Int)
  · rw [ParseDocument_large E tp ps doc url hc.1 hc.2]
    exact ⟨by constructor <;> intro <;> rfl, fun _ => rfl⟩
  · rw [ParseDocument_small E tp ps doc url (guard_not_and hc)]
    rcases hac : (grabOut E (resetParser ps doc url)).2 with _ | ac0
    · rw [finishParse_none]
      exact ⟨by constructor <;> intro <;> rfl, fun _ => rfl⟩
    · rw [finishParse_some]
      simp only [buildArticle]
      constructor
      · rw [charCount, List.length_eq_zero]
      · intro hcont
        have htext := innerHTML_nil_textContent
          (hel (grabOut E (resetParser ps doc url)).1 ac0) hcont
        rw [htext]
        rfl

/-- A pipeline whose sanitizer always returns an element container. -/
def engWit : Engine :=
  { idEngine with postProcessContent := fun _ _ => HtmlNode.element "div" [] [] }

/-- Witness for the amended C1 at a concrete call. -/
theorem length_zero_iff_text_empty_inst :
    ((ParseDocument engWit tpNone psDefault docTwo none).article.Length = 0 ↔
       (ParseDocument engWit tpNone psDefault docTwo none).article.TextContent = []) ∧
    ((ParseDocument engWit tpNone psDefault docTwo none).article.Content = [] →
       (ParseDocument engWit tpNone psDefault docTwo none).article.Length = 0) :=
  length_zero_iff_text_empty engWit tpNone psDefault docTwo none (fun _ _ => rfl)

/-- A paragraph whose text has inner whitespace that collapsing changes. -/
def pC5 : HtmlNode := HtmlNode.element "p" [] [HtmlNode.text (gs " a\nb ")]

/-- A pipeline that selects a container holding that paragraph. -/
def engC5 : Engine :=
  { idEngine with
    grabArticle := fun ps => (ps, some (HtmlNode.element "div" [] [pC5])) }

/-- C5 fails as stated: with no metadata excerpt and a first paragraph whose
trimmed text still contains a newline, the resulting excerpt is the
whitespace-collapsed text, not the trimmed text itself. -/
theorem excerpt_fallback_cex :
    mget (pipelineMetadata engC5 (resetParser psDefault docTwo none)) "excerpt"
        = [] ∧
    getElementsByTagName (HtmlNode.element "div" [] [pC5]) "p" = [pC5] ∧
    (ParseDocument engC5 tpNone psDefault docTwo none).article.Excerpt ≠
      trimSpace (textContent pC5) := by
  refine ⟨rfl, rfl, ?_⟩
  decide

/-- C5 (amended): with no metadata excerpt and at least one paragraph in the
selected container, the excerpt equals the trimmed text of the first
paragraph with every whitespace run collapsed to a single space and invalid
byte runs removed. -/
theorem excerpt_fallback_collapsed (E : Engine) (tp : TimeParse) (ps : Parser)
    (doc : HtmlNode) (url : Option GoStr) (ps' : Parser) (ac0 p0 : HtmlNode)
    (rest : List HtmlNode)
    (hsize : ps.MaxElemsToParse ≤ 0 ∨ (numTagsOf doc : Int) ≤ ps.MaxElemsToParse)
    (hgrab : grabOut E (resetParser ps doc url) = (ps', some ac0))
    (hexc : mget (pipelineMetadata E (resetParser ps doc url)) "excerpt" = [])
    (hp : getElementsByTagName (E.postProcessContent ps' ac0) "p" = p0 :: rest) :
    (ParseDocument E tp ps doc url).article.Excerpt =
      toValidUTF8 (joinWithSpace (fields (trimSpace (textContent p0)))) [] := by
  have h1 : (grabOut E (resetParser ps doc url)).1 = ps' := by rw [hgrab]
  have h2 : (grabOut E (resetParser ps doc url)).2 = some ac0 := by rw [hgrab]
  rw [ParseDocument_small E tp ps doc url hsize, h1, h2, finishParse_some]
  have hmd : excerptUpdated (pipelineMetadata E (resetParser ps doc url))
      (E.postProcessContent ps' ac0) =
      mset (pipelineMetadata E (resetParser ps doc url)) "excerpt"
        (trimSpace (textContent p0)) := by
    rw [excerptUpdated, if_pos hexc, hp]
  simp only [buildArticle]
  rw [hmd, mget_mset_self, trimSpace_idem]

/-- Witness for the amended C5 at the concrete call of the counterexample. -/
theorem excerpt_fallback_collapsed_inst :
    (ParseDocument engC5 tpNone psDefault docTwo none).article.Excerpt =
      toValidUTF8 (joinWithSpace (fields (trimSpace (textContent pC5)))) [] :=
  excerpt_fallback_collapsed engC5 tpNone psDefault docTwo none _ _ pC5 []
    (Or.inl (by decide)) rfl rfl rfl

/-- When a prefix of layouts all fail and the next one matches, the loop
returns that layout's timestamp. -/
theorem tryFormats_append_match (tp : TimeParse) (s : GoStr) :
    ∀ (l1 : List String) (fmt : String) (l2 : List String) (t : Time),
      (∀ f ∈ l1, tp f s = none) → tp fmt s = some t →
      tryFormats tp s (l1 ++ fmt :: l2) = some t
  | [], fmt, l2, t, _, hm => by
      rw [List.nil_append, tryFormats, hm]
  | f0 :: l1, fmt, l2, t, hn, hm => by
      rw [List.cons_append, tryFormats, hn f0 (List.mem_cons_self _ _)]
      exact tryFormats_append_match tp s l1 fmt l2 t
        (fun f hf => hn f (List.mem_cons_of_mem _ hf)) hm

/-- When every layout fails, the loop yields no timestamp. -/
theorem tryFormats_none (tp : TimeParse) (s : GoStr) :
    ∀ l : List String, (∀ f ∈ l, tp f s = none) → tryFormats tp s l = none
  | [], _ => rfl
  | f0 :: rest, hn => by
      rw [tryFormats, hn f0 (List.mem_cons_self _ _)]
      exact tryFormats_none tp s rest
        (fun f hf => hn f (List.mem_cons_of_mem _ hf))

/-- C6: date parsing tries the ordered layout list and returns the timestamp
decoded by the first layout that matches; a string that matches no supported
layout yields no timestamp — the function cannot return an error. -/
theorem getParsedDate_first_match (tp : TimeParse) (s : GoStr) :
    (∀ (l1 : List String) (fmt : String) (l2 : List String) (t : Time),
       dateFormats = l1 ++ fmt :: l2 → (∀ f ∈ l1, tp f s = none) →
       tp fmt s = some t → getParsedDate tp s = some t) ∧
    ((∀ f ∈ dateFormats, tp f s = none) → getParsedDate tp s = none) := by
  constructor
  · intro l1 fmt l2 t hdf hn hm
    rw [getParsedDate, hdf]
    exact tryFormats_append_match tp s l1 fmt l2 t hn hm
  · intro hn
    rw [getParsedDate]
    exact tryFormats_none tp s dateFormats hn

/-- The head of the layout list (Go's `time.RFC822`). -/
def rfc822 : String := "02 Jan 06 15:04 MST"

/-- A `time.Parse` behaviour in which exactly the RFC822 layout matches. -/
def tpC6 : TimeParse := fun f _ => if f = rfc822 then some 42 else none

/-- Witness for first-match date parsing: a behaviour matching only the
first listed layout returns its timestamp, and one matching none returns no
timestamp. -/
theorem getParsedDate_first_match_inst :
    getParsedDate tpC6 (gs "x") = some 42 ∧
    getParsedDate tpNone (gs "x") = none := by
  constructor
  · exact (getParsedDate_first_match tpC6 (gs "x")).1 [] rfc822 dateFormats.tail
      42 rfl (fun f hf => absurd hf (List.not_mem_nil f)) (by simp [tpC6])
  · exact (getParsedDate_first_match tpNone (gs "x")).2 (fun f _ => rfl)

/-- C7: a call that finds no article content still returns a populated
article with no error: content, text and length are empty/zero, the node
reference is nil, and every metadata-derived field is carried over; moreover
the only error any call over an already-parsed tree can return is the
size-limit error. -/
theorem no_content_best_effort (E : Engine) (tp : TimeParse) (ps : Parser)
    (doc : HtmlNode) (url : Option GoStr) (ps' : Parser)
    (hsize : ps.MaxElemsToParse ≤ 0 ∨ (numTagsOf doc : Int) ≤ ps.MaxElemsToParse)
    (hgrab : grabOut E (resetParser ps doc url) = (ps', none)) :
    (ParseDocument E tp ps doc url).err = none ∧
    (ParseDocument E tp ps doc url).article.Content = [] ∧
    (ParseDocument E tp ps doc url).article.TextContent = [] ∧
    (ParseDocument E tp ps doc url).article.Length = 0 ∧
    (ParseDocument E tp ps doc url).article.Node = none ∧
    (ParseDocument E tp ps doc url).article.Title =
      toValidUTF8 ps'.articleTitle (urlString url) ∧
    (ParseDocument E tp ps doc url).article.Byline =
      toValidUTF8
        (finalBylineStr ps' (pipelineMetadata E (resetParser ps doc url))) [] ∧
    (ParseDocument E tp ps doc url).article.Excerpt =
      toValidUTF8 (joinWithSpace (fields (trimSpace
        (mget (pipelineMetadata E (resetParser ps doc url)) "excerpt")))) [] ∧
    (ParseDocument E tp ps doc url).article.SiteName =
      mget (pipelineMetadata E (resetParser ps doc url)) "siteName" ∧
    (ParseDocument E tp ps doc url).article.Image =
      mget (pipelineMetadata E (resetParser ps doc url)) "image" ∧
    (ParseDocument E tp ps doc url).article.Favicon =
      mget (pipelineMetadata E (resetParser ps doc url)) "favicon" ∧
    (ParseDocument E tp ps doc url).article.PublishedTime =
      getDate tp (pipelineMetadata E (resetParser ps doc url)) "datePublished" ∧
    ∀ (E2 : Engine) (tp2 : TimeParse) (ps2 : Parser) (doc2 : HtmlNode)
      (url2 : Option GoStr),
      (ParseDocument E2 tp2 ps2 doc2 url2).err = none ∨
      (ParseDocument E2 tp2 ps2 doc2 url2).err =
        some (ParseError.documentTooLarge (numTagsOf doc2)) := by
  have h1 : (grabOut E (resetParser ps doc url)).1 = ps' := by rw [hgrab]
  have h2 : (grabOut E (resetParser ps doc url)).2 = none := by rw [hgrab]
  rw [ParseDocument_small E tp ps doc url hsize, h1, h2, finishParse_none]
  refine ⟨rfl, rfl, rfl, rfl, rfl, rfl, rfl, rfl, rfl, rfl, rfl, rfl, ?_⟩
  intro E2 tp2 ps2 doc2 url2
  by_cases hc : 0 < ps2.MaxElemsToParse ∧
      ps2.MaxElemsToParse < (numTagsOf doc2 : Int)
  · right
    rw [ParseDocument_large E2 tp2 ps2 doc2 url2 hc.1 hc.2]
  · left
    rw [ParseDocument_small E2 tp2 ps2 doc2 url2 (guard_not_and hc)]
    exact finishParse_err _ _ _ _ _ _ _

/-- Witness for the no-content outcome at a concrete call. -/
theorem no_content_best_effort_inst :
    (ParseDocument idEngine tpNone psDefault docTwo none).err = none ∧
    (ParseDocument idEngine tpNone psDefault docTwo none).article.Content = [] ∧
    (ParseDocument idEngine tpNone psDefault docTwo none).article.TextContent
      = [] := by
  have h := no_content_best_effort idEngine tpNone psDefault docTwo none _
    (Or.inl (by decide)) rfl
  exact ⟨h.1, h.2.1, h.2.2.1⟩

/-- The metadata record actually consulted when the article is assembled:
the merged record, with the excerpt fallback applied when a container was
selected. -/
def usedMetadata (E : Engine) (ps1 : Parser) : Metadata :=
  match grabOut E ps1 with
  | (_, none) => pipelineMetadata E ps1
  | (psg, some ac0) =>
      excerptUpdated (pipelineMetadata E ps1) (E.postProcessContent psg ac0)

/-- C8: invalid text encoding never fails the call — the title is repaired
with the source locator string (empty when no locator), byline and excerpt
with the empty string; repaired fields carry no invalid sequences, repair is
the identity on valid text, and a fully invalid run becomes exactly the
replacement. -/
theorem encoding_repair (E : Engine) (tp : TimeParse) (ps : Parser)
    (doc : HtmlNode) (url : Option GoStr)
    (hsize : ps.MaxElemsToParse ≤ 0 ∨ (numTagsOf doc : Int) ≤ ps.MaxElemsToParse) :
    (ParseDocument E tp ps doc url).err = none ∧
    (ParseDocument E tp ps doc url).article.Title =
      toValidUTF8 (grabOut E (resetParser ps doc url)).1.articleTitle
        (urlString url) ∧
    (ParseDocument E tp ps doc url).article.Byline =
      toValidUTF8 (finalBylineStr (grabOut E (resetParser ps doc url)).1
        (usedMetadata E (resetParser ps doc url))) [] ∧
    (ParseDocument E tp ps doc url).article.Excerpt =
      toValidUTF8 (joinWithSpace (fields (trimSpace
        (mget (usedMetadata E (resetParser ps doc url)) "excerpt")))) [] ∧
    noInvalid (ParseDocument E tp ps doc url).article.Byline = true ∧
    noInvalid (ParseDocument E tp ps doc url).article.Excerpt = true ∧
    (noInvalid (urlString url) = true →
      noInvalid (ParseDocument E tp ps doc url).article.Title = true) ∧
    (∀ s r : GoStr, noInvalid s = true → toValidUTF8 s r = s) ∧
    (∀ (b : Nat) (r : GoStr), toValidUTF8 [GoChar.invalid b] r = r) := by
  rw [ParseDocument_small E tp ps doc url hsize]
  rcases hg : grabOut E (resetParser ps doc url) with ⟨psg, _ | ac0⟩
  · have hu : usedMetadata E (resetParser ps doc url) =
        pipelineMetadata E (resetParser ps doc url) := by
      rw [usedMetadata, hg]
    rw [hu]
    exact ⟨rfl, rfl, rfl, rfl, @toValidUTF8_noInvalid [] rfl _,
      @toValidUTF8_noInvalid [] rfl _,
      fun hr => toValidUTF8_noInvalid hr _,
      fun s r hs => toValidUTF8_of_noInvalid hs r,
      fun b r => toValidUTF8_invalid_run b r⟩
  · have hu : usedMetadata E (resetParser ps doc url) =
        excerptUpdated (pipelineMetadata E (resetParser ps doc url))
          (E.postProcessContent psg ac0) := by
      rw [usedMetadata, hg]
    rw [hu]
    exact ⟨rfl, rfl, rfl, rfl, @toValidUTF8_noInvalid [] rfl _,
      @toValidUTF8_noInvalid [] rfl _,
      fun hr => toValidUTF8_noInvalid hr _,
      fun s r hs => toValidUTF8_of_noInvalid hs r,
      fun b r => toValidUTF8_invalid_run b r⟩

/-- Witness for encoding repair at a concrete call. -/
theorem encoding_repair_inst :
    (ParseDocument idEngine tpNone psDefault docTwo none).err = none ∧
    noInvalid (ParseDocument idEngine tpNone psDefault docTwo none).article.Byline
      = true ∧
    noInvalid (ParseDocument idEngine tpNone psDefault docTwo none).article.Title
      = true := by
  have h := encoding_repair idEngine tpNone psDefault docTwo none
    (Or.inl (by decide))
  exact ⟨h.1, h.2.2.2.2.1, h.2.2.2.2.2.2.1 rfl⟩

/-- A metadata record carrying only the canonical `dateModified` field. -/
def mdC4 : Metadata := [("dateModified", gs "2006-01-02T15:04:05Z")]

/-- A pipeline whose metadata extractor produces that record. -/
def engC4 : Engine := { idEngine with getArticleMetadata := fun _ _ => mdC4 }

/-- A `time.Parse` behaviour that decodes exactly that date string. -/
def tpC4 : TimeParse :=
  fun _ s => if s = gs "2006-01-02T15:04:05Z" then some 1136214245 else none

/-- C4 exposes a code bug: the metadata record holds a non-empty, parseable
canonical `dateModified` value — `getDate` on that key returns the
timestamp — yet the assembled article's `ModifiedTime` is nil, because line
118 of `parser-parse.go` looks up the misspelled key `"dataModified"`. -/
theorem modifiedTime_dataModified_typo :
    mget mdC4 "dateModified" = gs "2006-01-02T15:04:05Z" ∧
    getDate tpC4 mdC4 "dateModified" = some 1136214245 ∧
    (ParseDocument engC4 tpC4 psDefault docTwo none).err = none ∧
    (ParseDocument engC4 tpC4 psDefault docTwo none).article.ModifiedTime
      = none := by
  decide

end Readability
